import Mathlib

/-!
# Verification of the riverriderust world-simulation engine

A shallow embedding, in Lean 4, of the reactive world-simulation core of the
`riverriderust` repository, together with theorems settling the claims of its
natural-language specification.

The repository snapshot contains two versions of the crate:

* `src/riverraid/` — event dispatch (`game.rs`, `events/`), keyed timers
  (`timer.rs`, `world/mod.rs`), signal set, and the river-map generator
  (`world/map.rs`).  Embedded below in the `Engine` namespace.
* `src/src/` — the entity/collision resolver (`events.rs`, `entities.rs`).
  Embedded below in the `Collision` namespace.

Modelling conventions:

* `u16`/`usize` values are embedded as `Nat`; arithmetic that may wrap in
  release builds (`-=`, `+=` on `u16`) is written with an explicit `% 65536`.
  Subtractions that provably cannot underflow are plain `Nat` subtraction.
* `Instant::now()` is modelled by a ghost clock field `now : Nat` inside the
  world data; `Instant::elapsed()` becomes `now - instant`.
* `HashMap`/`HashSet` are modelled as functions `String → Option _` /
  `String → Bool` (their extensional contents).
* Rust panics (`unreachable!`, out-of-range indexing, `unwrap` on `None`) are
  modelled by returning `none` from an `Option`-valued function.
* `f32` smoothing arithmetic in `Map::decide_next` is modelled by exact
  rational arithmetic with the literal `1/10` followed by the `as u16`
  truncation (`Nat.floor`); the intermediate value provably stays inside
  `[0, 65535]`, where the cast is plain truncation.
* The random samples drawn by `rng.gen_range(..)` are passed to the embedded
  functions as explicit arguments.
-/

namespace Engine

/-- `WorldTimer` from `src/riverraid/src/world/mod.rs` (lines 46-99): a keyed
countdown timer.  The `key` field of `WorldTimerData` (a UUID string) is the
key under which the timer is stored in the registry, so it is represented by
the map key itself and not duplicated here. -/
structure WorldTimer where
  duration : Nat
  is_repeat : Bool
  instant : Nat
deriving DecidableEq

/-- `WorldTimer::elapsed` (`world/mod.rs` line 92-94):
`self.instant.elapsed() > self.data.duration`. -/
def WorldTimer.elapsed (t : WorldTimer) (now : Nat) : Bool :=
  decide (now - t.instant > t.duration)

/-- The part of `Player` that triggers read (`player.traveled`). -/
structure PlayerData where
  traveled : Nat
deriving DecidableEq

/-- The event-free portion of `World` (`src/riverraid/src/world/mod.rs` lines
277-299) that the trigger evaluator and the timer/signal registries touch:
player data, counters, the timer table, the custom-drawing table (only its key
set matters to triggers), and the signal set.  Fields of `World` never read by
the embedded operations (canvas, map, entities, rng, spawn probabilities) are
omitted.  `now` is the ghost clock standing for `Instant::now()`. -/
structure WorldData where
  player : PlayerData
  elapsed_time : Nat
  elapsed_loops : Nat
  now : Nat
  timers : String → Option WorldTimer
  custom_drawings : String → Bool
  signals : String → Bool

/-- `World::timer_elapsed` (`src/riverraid/src/world/mod.rs` lines 335-361).
Missing key: warn and return `None`.  Not yet elapsed: `Some(false)`.
Elapsed and repeating: reset the start instant, `Some(true)`.  Elapsed and
non-repeating: remove the key from the table, `Some(true)`. -/
def timer_elapsed (w : WorldData) (key : String) : Option Bool × WorldData :=
  match w.timers key with
  | none => (none, w)
  | some timer =>
    if !(timer.elapsed w.now) then
      (some false, w)
    else if timer.is_repeat then
      (some true,
        { w with timers := fun k => if k = key then some { timer with instant := w.now } else w.timers k })
    else
      (some true,
        { w with timers := fun k => if k = key then none else w.timers k })

/-- `World::send_signal` (`world/mod.rs` lines 367-372): insert the key into
the signal set.  (The `None → fresh UUID` case of the Rust `Into<Option>`
argument is modelled by the caller supplying the key.) -/
def send_signal (w : WorldData) (key : String) : WorldData :=
  { w with signals := fun k => if k = key then true else w.signals k }

/-- `World::signaled` (`world/mod.rs` lines 363-365):
`self.signals.borrow_mut().remove(signal_key)` — returns whether the key was
present and removes it (read-and-clear). -/
def signaled (w : WorldData) (key : String) : Bool × WorldData :=
  (w.signals key,
   { w with signals := fun k => if k = key then false else w.signals k })

/-- `WorldEventTrigger` from `src/riverraid/src/events/triggers.rs` lines
46-55 (also `world/mod.rs` lines 144-151).  `TimerKey` is a newtype over
`String` and is represented by `String`. -/
inductive WorldEventTrigger where
  | Always
  | GameStarted
  | Traveled (distance : Nat)
  | TimerElapsed (key : String)
  | DrawingExists (key : String)
  | Signal (key : String)

/-- `WorldEventTrigger::is_triggered` (`triggers.rs` lines 63-72).  The timer
and signal cases are destructive (interior mutability through `RefCell`), so
the evaluation returns the updated world data alongside the boolean. -/
def WorldEventTrigger.is_triggered : WorldEventTrigger → WorldData → Bool × WorldData
  | .Always, w => (true, w)
  | .Traveled distance, w => (decide (w.player.traveled ≥ distance), w)
  | .TimerElapsed key, w =>
    let r := timer_elapsed w key
    (r.1.getD false, r.2)
  | .GameStarted, w => (decide (w.elapsed_loops ≤ 0), w)
  | .DrawingExists key, w => (w.custom_drawings key, w)
  | .Signal key, w => signaled w key

/-- An event handler (`EventHandler` is an arbitrary boxed
`FnMut(&mut World)` closure in the source).  Handlers in the repository
interleave mutations of the world's data with calls to `World::add_event`;
the deep constructors below capture exactly that: an arbitrary mutation of
the event-free data, a `World::add_event` call (the only operation of the
repository's handlers that touches `new_events`), and sequencing.  The deep
embedding is needed because a handler may register an event that itself
carries a handler. -/
inductive Handler where
  | act (f : WorldData → WorldData)
  | add_event (trigger : WorldEventTrigger) (is_continues : Bool) (handler : Handler)
  | seq (fst snd : Handler)
  | skip

/-- `WorldEvent` from `src/riverraid/src/world/mod.rs` lines 177-181 (named
`WorldBuilder` with field `continues` in `events/mod.rs`; `game.rs` uses the
`is_continues` field spelling): a trigger, a continuation flag and a handler. -/
structure WorldEvent where
  trigger : WorldEventTrigger
  is_continues : Bool
  handler : Handler

/-- The `World` aggregate split into its event-free data and the pending
`new_events` queue (`world/mod.rs` line 297). -/
structure World where
  data : WorldData
  new_events : List WorldEvent

/-- Running a handler against the world.  `add_event` is
`World::add_event` (`world/mod.rs` lines 429-434): it pushes the new event to
the pending `new_events` queue, not to the active list. -/
def run_handler : Handler → World → World
  | .act f, w => { w with data := f w.data }
  | .add_event t c h, w => { w with new_events := w.new_events ++ [⟨t, c, h⟩] }
  | .seq a b, w => run_handler b (run_handler a w)
  | .skip, w => w

/-- An active event decorated with a ghost identity.  The Rust active list
`Game::events` is a plain `Vec`; the `id` field is specification-only
instrumentation used to track one registration across ticks (fresh ids are
handed out when pending events are drained into the active list). -/
structure IdEvent where
  id : Nat
  ev : WorldEvent

/-- Result of one dispatch pass: the retained active list, the final world,
and two ghost logs — the ids of the events whose handlers were invoked
(`fired`) and the events whose triggers were evaluated (`evaluated`), in
order. -/
structure RunOut where
  kept : List IdEvent
  world : World
  fired : List Nat
  evaluated : List IdEvent

/-- `Game::run_events` (`src/riverraid/src/game.rs` lines 36-45):
`self.events.retain(|event| if trigger { handler; is_continues } else
{ true })` — one filter-with-side-effect pass over the active list in
registration order.  The `fired`/`evaluated` components are ghost logs. -/
def run_events : List IdEvent → World → RunOut
  | [], w => ⟨[], w, [], []⟩
  | ie :: rest, w =>
    match ie.ev.trigger.is_triggered w.data with
    | (true, d) =>
      let r := run_events rest (run_handler ie.ev.handler { w with data := d })
      ⟨if ie.ev.is_continues then ie :: r.kept else r.kept,
       r.world, ie.id :: r.fired, ie :: r.evaluated⟩
    | (false, d) =>
      let r := run_events rest { w with data := d }
      ⟨ie :: r.kept, r.world, r.fired, ie :: r.evaluated⟩

/-- The state owned by `Game` (`game.rs` lines 30-33): the active event list
and the world.  `next_id` is the ghost counter from which fresh event ids are
drawn. -/
structure Game where
  events : List IdEvent
  next_id : Nat
  world : World

/-- Assign consecutive ghost ids to a batch of drained pending events. -/
def idAssign : Nat → List WorldEvent → List IdEvent
  | _, [] => []
  | n, e :: rest => ⟨n, e⟩ :: idAssign (n + 1) rest

/-- One `Fluent` iteration of `Game::game_loop` (`game.rs` lines 93-121):
run the dispatch pass, drain `world.new_events` (in order, each appended to
the active list by `Game::add_event`), then bump `elapsed_loops`.  Rendering
and sleeping do not touch the embedded state.  Returns the ghost log of fired
event ids. -/
def Game.tick (g : Game) : Game × List Nat :=
  let r := run_events g.events g.world
  let drained := r.world.new_events
  ({ events := r.kept ++ idAssign g.next_id drained
     next_id := g.next_id + drained.length
     world := { data := { r.world.data with elapsed_loops := r.world.data.elapsed_loops + 1 }
                new_events := [] } },
   r.fired)

/-- `n` iterations of the game loop, accumulating the fired log. -/
def Game.run : Game → Nat → Game × List Nat
  | g, 0 => (g, [])
  | g, n + 1 =>
    let p := g.tick
    let q := p.1.run n
    (q.1, p.2 ++ q.2)

/-- Well-formedness of the ghost instrumentation: every active id is below
the fresh-id counter and the active ids are distinct.  (Both hold for any
state built by `Game.tick` from a well-formed one.) -/
def Game.WF (g : Game) : Prop :=
  (∀ ie ∈ g.events, ie.id < g.next_id) ∧ (g.events.map IdEvent.id).Nodup

/-- `RiverPart` from `src/riverraid/src/world/map.rs` lines 14-18. -/
structure RiverPart where
  width : Nat
  center_c : Nat
deriving DecidableEq

/-- `RiverPart::new`. -/
def RiverPart.new (width center_c : Nat) : RiverPart :=
  ⟨width, center_c⟩

/-- `RiverMode` from `map.rs` lines 88-107. -/
inductive RiverMode where
  | Random (min_width max_width max_center_diff : Nat)
  | ConstWidth (width max_center_diff : Nat)
  | ConstCenter (center_c min_width max_width : Nat)
  | ConstWidthAndCenter (width center_c : Nat)
deriving DecidableEq

/-- `Restorable<T>` from `src/riverraid/src/utilities/restorable.rs`: a
current value plus the baseline it can be restored to. -/
structure Restorable (α : Type) where
  value : α
  solid_value : α
deriving DecidableEq

/-- `Map` from `src/riverraid/src/world/map.rs` lines 112-120.  The
`VecDeque` window is a list whose head is the front line. -/
structure Map where
  max_c : Nat
  max_l : Nat
  river_mode : Restorable RiverMode
  river_parts : List RiverPart
  next_point : Nat
  change_rate : Nat
  target_river : RiverPart
deriving DecidableEq

/-- `Map::front` (`map.rs` lines 208-210): the front of the `VecDeque`. -/
def Map.front (m : Map) : Option RiverPart :=
  m.river_parts.head?

/-- `RiverPart::from_map` (`map.rs` lines 25-76), the mode-directed target
generator.  `rw` and `rc` stand for the values drawn by
`rng.gen_range(min_width..max_width)` and `rng.gen_range(0..max_c)`.
`map.front().unwrap()` on an empty window and the `unreachable!` arm of the
`cmp` match are modelled by `none`.  In the clamping branches the `u16`
subtraction/addition provably cannot underflow/overflow, so plain `Nat`
arithmetic is used. -/
def RiverPart.from_map (map : Map) (rw rc : Nat) : Option RiverPart :=
  match map.river_mode.value with
  | .Random _min_width _max_width max_center_diff =>
    match map.front with
    | none => none
    | some f =>
      let river := RiverPart.new rw rc
      if Nat.dist river.center_c f.center_c > max_center_diff then
        if river.center_c < f.center_c then
          some { river with center_c := f.center_c - max_center_diff }
        else if f.center_c < river.center_c then
          some { river with center_c := f.center_c + max_center_diff }
        else none
      else some river
  | .ConstWidth width max_center_diff =>
    match map.front with
    | none => none
    | some f =>
      let river := RiverPart.new width rc
      if Nat.dist river.center_c f.center_c > max_center_diff then
        if river.center_c < f.center_c then
          some { river with center_c := f.center_c - max_center_diff }
        else if f.center_c < river.center_c then
          some { river with center_c := f.center_c + max_center_diff }
        else none
      else some river
  | .ConstCenter center_c _min_width _max_width => some (RiverPart.new rw center_c)
  | .ConstWidthAndCenter width center_c => some (RiverPart.new width center_c)

/-- `Map::decide_next` (`map.rs` lines 149-162): the exponential smoothing
step `new = current + (target - current) * 0.1` for both width and center,
truncated back to `u16`.  The `f32` arithmetic is modelled by exact rational
arithmetic; `as u16` is `Nat.floor` (the value is provably in `[0, 65535]`,
and Rust's saturating-at-zero cast of a negative value agrees with
`Nat.floor`).  The `unreachable!("Map can't get empty.")` branch is `none`. -/
def Map.decide_next (m : Map) : Option RiverPart :=
  match m.front with
  | some river =>
    let new_center_c : ℚ :=
      (river.center_c : ℚ) + ((m.target_river.center_c : ℚ) - (river.center_c : ℚ)) * (1 / 10)
    let new_width : ℚ :=
      (river.width : ℚ) + ((m.target_river.width : ℚ) - (river.width : ℚ)) * (1 / 10)
    some (RiverPart.new (Nat.floor new_width) (Nat.floor new_center_c))
  | none => none

/-- `Map::generate_new_target` (`map.rs` lines 164-166). -/
def Map.generate_new_target (m : Map) (rw rc : Nat) : Option RiverPart :=
  RiverPart.from_map m rw rc

/-- `Map::new` (`map.rs` lines 122-147). -/
def Map.new (max_c max_l min_width max_width change_rate max_center_diff : Nat) : Map :=
  { max_c := max_c
    max_l := max_l
    next_point := max_l
    river_parts := List.replicate max_l (RiverPart.new max_width (max_c / 2))
    change_rate := change_rate
    river_mode := ⟨RiverMode.Random min_width max_width max_center_diff,
                   RiverMode.Random min_width max_width max_center_diff⟩
    target_river := RiverPart.new max_width (max_c / 2) }

/-- `Map::update` (`map.rs` lines 189-198).  When the countdown has run out a
new target is generated (consuming the random samples `rw`, `rc`) and the
countdown is reset to `max_l`; then the back line is popped, the smoothed next
line is computed (after the pop, matching Rust's evaluation order of
`push_front(self.decide_next())`) and pushed to the front; finally the
countdown is decremented with `checked_sub(..).unwrap_or(0)`. -/
def Map.update (m : Map) (rw rc : Nat) : Option Map :=
  let step1 : Option Map :=
    if m.next_point ≤ m.change_rate then
      match m.generate_new_target rw rc with
      | none => none
      | some t => some { m with target_river := t, next_point := m.max_l }
    else some m
  match step1 with
  | none => none
  | some m1 =>
    let popped := m1.river_parts.dropLast
    match Map.decide_next { m1 with river_parts := popped } with
    | none => none
    | some np =>
      some { m1 with river_parts := np :: popped
                     next_point := m1.next_point - m1.change_rate }

/-- `Map::river_borders` (`map.rs` lines 177-187) as a half-open range
`[left, right)`: `left = center - width/2` (saturating), `right =
min(center + width/2, max_c)`. -/
def Map.river_borders (m : Map) (river : RiverPart) : Nat × Nat :=
  let offset := river.width / 2
  let left_border := river.center_c - offset
  let right_border := river.center_c + offset
  (left_border, if right_border ≥ m.max_c then m.max_c else right_border)

/-- `Map::river_borders_at` (`map.rs` lines 173-175); the `river_parts[line]`
indexing panics when `line` is out of range, modelled by `none`. -/
def Map.river_borders_at (m : Map) (line : Nat) : Option (Nat × Nat) :=
  (m.river_parts.get? line).map m.river_borders

/-- `Map::is_in_river` (`map.rs` lines 168-171): whether the column lies in
the half-open border range of the location's line. -/
def Map.is_in_river (m : Map) (column line : Nat) : Option Bool :=
  (m.river_borders_at line).map fun b => decide (b.1 ≤ column) && decide (column < b.2)

end Engine

namespace Collision

/-- `DeathCause` from `src/src/entities.rs` lines 4-8. -/
inductive DeathCause where
  | Enemy
  | Ground
  | Fuel
deriving DecidableEq

/-- `PlayerStatus` from `entities.rs` lines 11-15. -/
inductive PlayerStatus where
  | Dead (cause : DeathCause)
  | Alive
  | Quit
deriving DecidableEq

/-- `EntityStatus` from `entities.rs` lines 18-22. -/
inductive EntityStatus where
  | Alive
  | DeadBody
  | Dead
deriving DecidableEq

/-- `Location` from `entities.rs` lines 25-28 (`u16` column and line). -/
structure Location where
  column : Nat
  line : Nat
deriving DecidableEq

/-- `Location::hit_with_margin` (`entities.rs` lines 107-119).  Each `u16`
subtraction is guarded by the short-circuiting comparison before it, so it
never underflows and plain `Nat` subtraction is faithful. -/
def Location.hit_with_margin (self other : Location) (top right bottom left : Nat) : Bool :=
  (decide (other.line > self.line) || decide (self.line - other.line ≤ bottom))
  && (decide (self.line > other.line) || decide (other.line - self.line ≤ top))
  && (decide (other.column > self.column) || decide (self.column - other.column ≤ left))
  && (decide (self.column > other.column) || decide (other.column - self.column ≤ right))

/-- `Location::hit` (`entities.rs` lines 122-124): exact coincidence. -/
def Location.hit (self other : Location) : Bool :=
  self.hit_with_margin other 0 0 0 0

/-- `EntityType` from `entities.rs` lines 167-170, with `Enemy { armor }`
inlined (lines 127-129). -/
inductive EntityType where
  | Enemy (armor : Nat)
  | Fuel
deriving DecidableEq

/-- `EntityType::is_enemy` (`entities.rs` lines 185-187). -/
def EntityType.is_enemy : EntityType → Bool
  | .Enemy _ => true
  | .Fuel => false

/-- `EntityType::is_fuel` (`entities.rs` lines 177-179). -/
def EntityType.is_fuel : EntityType → Bool
  | .Enemy _ => false
  | .Fuel => true

/-- `Entity` from `entities.rs` lines 206-210. -/
structure Entity where
  location : Location
  status : EntityStatus
  entity_type : EntityType
deriving DecidableEq

/-- `Bullet` from `entities.rs` lines 143-146. -/
structure Bullet where
  energy : Nat
  location : Location
deriving DecidableEq

/-- `Player` from `entities.rs` lines 224-232. -/
structure Player where
  location : Location
  status : PlayerStatus
  fuel : Nat
  score : Nat
  traveled : Nat
  bullets : List Bullet
deriving DecidableEq

/-- The fields of the `src/src` `World` that the collision resolver and the
player-status handler touch: the player, the entity list and the map (the
river-borders implementation present in the repository is the one in
`src/riverraid/src/world/map.rs`).  The remaining `World` fields (canvas,
rng, counters, timers, …) are not read by these handlers and are omitted. -/
structure World where
  player : Player
  entities : List Entity
  map : Engine.Map
deriving DecidableEq

/-- The cleanup step opening `update_entities_status` (`src/src/events.rs`
lines 130-138): `entities.retain(|f| ...)` drops an entity exactly when it is
an `Enemy` whose status is `Dead`. -/
def remove_dead (entities : List Entity) : List Entity :=
  entities.filter fun f => !(f.entity_type.is_enemy && decide (f.status = EntityStatus.Dead))

/-- The per-entity `match entity.status` block of `update_entities_status`
(`events.rs` lines 141-157): an `Alive` entity exactly coinciding with the
player kills the player (enemy) or is consumed for fuel (`+200`, `u16`
wrapping add); a `DeadBody` advances to `Dead`; anything else is left alone. -/
def contact_step (entity : Entity) (player : Player) : Entity × Player :=
  if entity.status = EntityStatus.Alive && player.location.hit entity.location then
    match entity.entity_type with
    | .Enemy _ => (entity, { player with status := PlayerStatus.Dead DeathCause.Enemy })
    | .Fuel => ({ entity with status := EntityStatus.DeadBody },
                { player with fuel := (player.fuel + 200) % 65536 })
  else if entity.status = EntityStatus.DeadBody then
    ({ entity with status := EntityStatus.Dead }, player)
  else (entity, player)

/-- The per-entity bullet loop of `update_entities_status` (`events.rs` lines
159-178): `for bullet in world.player.bullets.iter().rev()`.  The `rev()`
iteration is modelled by recursing first on the tail.  On a margin hit an
enemy's armor is decremented (`armor -= 1` on `u16`: wrapping in release
builds, written `(armor + 65535) % 65536`), and when the armor has reached
zero the enemy becomes a `DeadBody` and the score is credited 10; a hit fuel
becomes a `DeadBody` and credits 20. -/
def bullet_hits : List Bullet → Entity → Player → Entity × Player
  | [], entity, player => (entity, player)
  | bullet :: rest, entity, player =>
    let r := bullet_hits rest entity player
    let entity := r.1
    let player := r.2
    if bullet.location.hit_with_margin entity.location 1 0 1 0 then
      match entity.entity_type with
      | .Enemy armor =>
        let armor2 := (armor + 65535) % 65536
        if armor2 = 0 then
          ({ entity with entity_type := EntityType.Enemy armor2, status := EntityStatus.DeadBody },
           { player with score := (player.score + 10) % 65536 })
        else
          ({ entity with entity_type := EntityType.Enemy armor2 }, player)
      | .Fuel =>
        ({ entity with status := EntityStatus.DeadBody },
         { player with score := (player.score + 20) % 65536 })
    else (entity, player)

/-- The main loop of `update_entities_status` (`events.rs` lines 140-179):
`for entity in world.entities.iter_mut().rev()` — the reverse iteration is
modelled by recursing first on the tail, so the last list entry is processed
first, exactly as `iter_mut().rev()` does.  Each entity goes through the
status match and then the bullet loop; the player's bullet list itself is
never modified during the pass. -/
def entities_pass : List Entity → Player → List Entity × Player
  | [], player => ([], player)
  | entity :: rest, player =>
    let r := entities_pass rest player
    let c := contact_step entity r.2
    let b := bullet_hits c.2.bullets c.1 c.2
    (b.1 :: r.1, b.2)

/-- `update_entities_status` (`src/src/events.rs` lines 129-180): the
collision-resolver pass — purge dead enemies, then run the status match and
the bullet hit test over the remaining entities. -/
def update_entities_status (w : World) : World :=
  let entities1 := remove_dead w.entities
  let r := entities_pass entities1 w.player
  { w with entities := r.1, player := r.2 }

/-- `PlayerStatusUpdater`'s handler (`src/src/events.rs` lines 114-125, the
same logic as `update_player_status` in `src/src/world/events.rs` lines
19-28): out-of-river first (early return with `Dead(Ground)`), then the fuel
check (`Dead(Fuel)`).  `Map::is_in_river` panics on an out-of-range line,
modelled by `none`. -/
def update_player_status (w : World) : Option World :=
  match w.map.is_in_river w.player.location.column w.player.location.line with
  | none => none
  | some inRiver =>
    if !inRiver then
      some { w with player := { w.player with status := PlayerStatus.Dead DeathCause.Ground } }
    else if w.player.fuel = 0 then
      some { w with player := { w.player with status := PlayerStatus.Dead DeathCause.Fuel } }
    else some w

end Collision

/-! ## Concrete instances used in the claim theorems -/

/-- A world data value with empty registries (ghost clock at 0). -/
def dataW : Engine.WorldData :=
  { player := ⟨0⟩
    elapsed_time := 0
    elapsed_loops := 0
    now := 0
    timers := fun _ => none
    custom_drawings := fun _ => false
    signals := fun _ => false }

/-- World data holding one non-repeating timer `"t"` of duration 5 whose
duration has passed (ghost clock at 6). -/
def wTimer : Engine.WorldData :=
  { dataW with
    now := 6
    timers := fun k => if k = "t" then some ⟨5, false, 0⟩ else none }

/-- A one-shot always-firing event (ghost id 0 in `gW`). -/
def evA : Engine.WorldEvent :=
  ⟨Engine.WorldEventTrigger.Always, false, Engine.Handler.skip⟩

/-- A continuing always-firing event (ghost id 1 in `gW`). -/
def evB : Engine.WorldEvent :=
  ⟨Engine.WorldEventTrigger.Always, true, Engine.Handler.skip⟩

/-- A game with one one-shot and one continuing event. -/
def gW : Engine.Game :=
  { events := [⟨0, evA⟩, ⟨1, evB⟩]
    next_id := 2
    world := ⟨dataW, []⟩ }

/-- A game whose single event's handler registers a new event; used to
exercise the deferred-add law at a concrete input. -/
def gAdd : Engine.Game :=
  { events := [⟨0, ⟨Engine.WorldEventTrigger.Always, true,
      Engine.Handler.add_event Engine.WorldEventTrigger.Always false Engine.Handler.skip⟩⟩]
    next_id := 1
    world := ⟨dataW, []⟩ }

/-- A concrete map: 20 columns, 8 lines, river width 6 centered at column 10,
so the river borders of every line are `[7, 13)`. -/
def mapC : Engine.Map :=
  Engine.Map.new 20 8 5 6 2 5

/-- Collision-margin scenario, pass-1 input: enemy with armor 2 at column 10,
line 5; live bullet at column 10, line 4; player far away at the origin. -/
def wC4_1 : Collision.World :=
  { player := { location := ⟨0, 0⟩, status := Collision.PlayerStatus.Alive, fuel := 100,
                score := 0, traveled := 0, bullets := [⟨1, ⟨10, 4⟩⟩] }
    entities := [⟨⟨10, 5⟩, Collision.EntityStatus.Alive, Collision.EntityType.Enemy 2⟩]
    map := mapC }

/-- Pass-2 input: the pass-1 result with another qualifying bullet. -/
def wC4_2 : Collision.World :=
  let w := Collision.update_entities_status wC4_1
  { w with player := { w.player with bullets := [⟨1, ⟨10, 4⟩⟩] } }

/-- Pass-3 input: the pass-2 result with no bullets in flight. -/
def wC4_3 : Collision.World :=
  let w := Collision.update_entities_status wC4_2
  { w with player := { w.player with bullets := [] } }

/-- Pass-4 input: the pass-3 result, unchanged. -/
def wC4_4 : Collision.World :=
  Collision.update_entities_status wC4_3

/-- A world holding one Fuel entity whose status is `Dead`. -/
def wC5 : Collision.World :=
  { player := { location := ⟨0, 0⟩, status := Collision.PlayerStatus.Alive, fuel := 100,
                score := 0, traveled := 0, bullets := [] }
    entities := [⟨⟨3, 3⟩, Collision.EntityStatus.Dead, Collision.EntityType.Fuel⟩]
    map := mapC }

/-- A player with empty fuel whose column (1) lies outside the river borders
`[7, 13)` of its line. -/
def wC6 : Collision.World :=
  { player := { location := ⟨1, 4⟩, status := Collision.PlayerStatus.Alive, fuel := 0,
                score := 0, traveled := 0, bullets := [] }
    entities := []
    map := mapC }

/-- A player with empty fuel inside the river (column 10 ∈ `[7, 13)`). -/
def wC6w : Collision.World :=
  { player := { location := ⟨10, 4⟩, status := Collision.PlayerStatus.Alive, fuel := 0,
                score := 0, traveled := 0, bullets := [] }
    entities := []
    map := mapC }

/-- The armor-underflow input: a `DeadBody` enemy with armor 0 one line above
the player, and a fresh bullet at the player's location.  (Reachable: a
zero-energy bullet kills the enemy on tick N — armor 1 → 0, `DeadBody` — and
is culled by `move_bullets` later in tick N, so the fire key can launch a new
bullet from the player's location on tick N+1, before the `DeadBody` entity —
still in the list — is tested against it.) -/
def wC10 : Collision.World :=
  { player := { location := ⟨10, 7⟩, status := Collision.PlayerStatus.Alive, fuel := 5,
                score := 0, traveled := 0, bullets := [⟨3, ⟨10, 7⟩⟩] }
    entities := [⟨⟨10, 6⟩, Collision.EntityStatus.DeadBody, Collision.EntityType.Enemy 0⟩]
    map := mapC }

/-- A map in `Random` mode whose front line (width 5, center 5) differs from
the target (width 6, center 6) by exactly 1 in both coordinates. -/
def mC7 : Engine.Map :=
  { max_c := 20
    max_l := 1
    river_mode := ⟨Engine.RiverMode.Random 5 6 5, Engine.RiverMode.Random 5 6 5⟩
    river_parts := [⟨5, 5⟩]
    next_point := 1
    change_rate := 2
    target_river := ⟨6, 6⟩ }

/-! ## Helper lemmas for the map generator -/

/-- The exponential smoothing step `c + (t - c) * (1/10)`, truncated, equals
the integer expression `(9c + t) / 10`. -/
theorem floor_smooth (c t : Nat) :
    Nat.floor ((c : ℚ) + ((t : ℚ) - (c : ℚ)) * (1 / 10)) = (9 * c + t) / 10 := by
  have h : (c : ℚ) + ((t : ℚ) - (c : ℚ)) * (1 / 10) = ((9 * c + t : ℕ) : ℚ) / ((10 : ℕ) : ℚ) := by
    push_cast
    ring
  rw [h, Nat.floor_div_nat, Nat.floor_natCast]

/-- `Map::decide_next` on a non-empty window computes `(9·current+target)/10`
for both coordinates. -/
theorem decide_next_eq (m : Engine.Map) (f : Engine.RiverPart) (hf : m.front = some f) :
    m.decide_next = some ⟨(9 * f.width + m.target_river.width) / 10,
                          (9 * f.center_c + m.target_river.center_c) / 10⟩ := by
  unfold Engine.Map.decide_next
  rw [hf]
  simp only [Engine.RiverPart.new, floor_smooth]

/-- `RiverPart::from_map` never panics when the window is non-empty: the
`unreachable!` arm of the clamping `match` requires `center = front_center`
together with `|center - front_center| > max_center_diff`, which is
impossible. -/
theorem from_map_isSome (m : Engine.Map) (f : Engine.RiverPart) (hf : m.front = some f)
    (rw rc : Nat) : ∃ r, Engine.RiverPart.from_map m rw rc = some r := by
  rcases hm : m.river_mode.value with ⟨mw, Mw, d⟩ | ⟨width, d⟩ | ⟨cc, mw, Mw⟩ | ⟨width, cc⟩
  · simp only [Engine.RiverPart.from_map, hm, hf, Engine.RiverPart.new]
    split_ifs with h1 h2 h3
    · exact ⟨_, rfl⟩
    · exact ⟨_, rfl⟩
    · exfalso
      simp [Nat.dist] at h1
      omega
    · exact ⟨_, rfl⟩
  · simp only [Engine.RiverPart.from_map, hm, hf, Engine.RiverPart.new]
    split_ifs with h1 h2 h3
    · exact ⟨_, rfl⟩
    · exact ⟨_, rfl⟩
    · exfalso
      simp [Nat.dist] at h1
      omega
    · exact ⟨_, rfl⟩
  · refine ⟨Engine.RiverPart.new rw cc, ?_⟩
    simp [Engine.RiverPart.from_map, hm]
  · refine ⟨Engine.RiverPart.new width cc, ?_⟩
    simp [Engine.RiverPart.from_map, hm]

/-! ## Helper lemmas for the event dispatcher -/

/-- The dispatch pass evaluates exactly the triggers of the events in the
input active list, each once, in order. -/
theorem run_events_evaluated (l : List Engine.IdEvent) (w : Engine.World) :
    (Engine.run_events l w).evaluated = l := by
  induction l generalizing w with
  | nil => rfl
  | cons ie rest ih =>
    rcases h : ie.ev.trigger.is_triggered w.data with ⟨b, d⟩
    cases b <;> simp [Engine.run_events, h, ih]

/-- The retained list of a dispatch pass is a sublist of the input list. -/
theorem run_events_kept_sublist (l : List Engine.IdEvent) (w : Engine.World) :
    (Engine.run_events l w).kept.Sublist l := by
  induction l generalizing w with
  | nil => simp [Engine.run_events]
  | cons ie rest ih =>
    rcases h : ie.ev.trigger.is_triggered w.data with ⟨b, d⟩
    cases b
    · simp only [Engine.run_events, h]
      exact List.Sublist.cons₂ ie (ih _)
    · simp only [Engine.run_events, h]
      by_cases hc : ie.ev.is_continues
      · simp only [hc, if_true]
        exact List.Sublist.cons₂ ie (ih _)
      · simp only [hc, if_false]
        exact List.Sublist.cons ie (ih _)

/-- The fired-id log of a dispatch pass is a sublist of the input ids. -/
theorem run_events_fired_sublist (l : List Engine.IdEvent) (w : Engine.World) :
    (Engine.run_events l w).fired.Sublist (l.map Engine.IdEvent.id) := by
  induction l generalizing w with
  | nil => simp [Engine.run_events]
  | cons ie rest ih =>
    rcases h : ie.ev.trigger.is_triggered w.data with ⟨b, d⟩
    cases b
    · simp only [Engine.run_events, h, List.map_cons]
      exact List.Sublist.cons ie.id (ih _)
    · simp only [Engine.run_events, h, List.map_cons]
      exact List.Sublist.cons₂ ie.id (ih _)

/-- A `continues=true` event is always retained by a dispatch pass. -/
theorem run_events_continues_kept (l : List Engine.IdEvent) (w : Engine.World)
    (ie : Engine.IdEvent) (hmem : ie ∈ l) (hc : ie.ev.is_continues = true) :
    ie ∈ (Engine.run_events l w).kept := by
  induction l generalizing w with
  | nil => cases hmem
  | cons je rest ih =>
    rcases h : je.ev.trigger.is_triggered w.data with ⟨b, d⟩
    rcases List.mem_cons.mp hmem with rfl | hmem2
    · cases b
      · simp only [Engine.run_events, h]
        exact List.mem_cons_self _ _
      · simp only [Engine.run_events, h, hc, if_true]
        exact List.mem_cons_self _ _
    · cases b
      · simp only [Engine.run_events, h]
        exact List.mem_cons_of_mem _ (ih _ hmem2)
      · simp only [Engine.run_events, h]
        by_cases hjc : je.ev.is_continues
        · simp only [hjc, if_true]
          exact List.mem_cons_of_mem _ (ih _ hmem2)
        · simp only [hjc, if_false]
          exact ih _ hmem2

/-- If a non-continuing event of the active list fires during the pass, it is
absent from the retained list (given distinct ids). -/
theorem run_events_oneshot_dropped (l : List Engine.IdEvent) (w : Engine.World)
    (ie : Engine.IdEvent) (hnd : (l.map Engine.IdEvent.id).Nodup) (hmem : ie ∈ l)
    (hc : ie.ev.is_continues = false) (hf : ie.id ∈ (Engine.run_events l w).fired) :
    ie.id ∉ (Engine.run_events l w).kept.map Engine.IdEvent.id := by
  induction l generalizing w with
  | nil => cases hmem
  | cons je rest ih =>
    rw [List.map_cons, List.nodup_cons] at hnd
    obtain ⟨hni, hnd2⟩ := hnd
    rcases h : je.ev.trigger.is_triggered w.data with ⟨b, d⟩
    rcases List.mem_cons.mp hmem with rfl | hmem2
    · cases b
      · -- not triggered: but then `ie.id` cannot be in the fired log at all
        exfalso
        simp only [Engine.run_events, h] at hf
        exact hni ((run_events_fired_sublist rest _).subset hf)
      · -- triggered one-shot head: dropped, and its id is not among the rest
        simp only [Engine.run_events, h, hc, if_false]
        intro hmem3
        exact hni (((run_events_kept_sublist rest _).map Engine.IdEvent.id).subset hmem3)
    · have hne : ie.id ≠ je.id := by
        intro heq
        exact hni (heq ▸ List.mem_map_of_mem Engine.IdEvent.id hmem2)
      cases b
      · simp only [Engine.run_events, h] at hf ⊢
        rw [List.map_cons, List.mem_cons]
        rintro (heq | hmem3)
        · exact hne heq
        · exact ih _ hnd2 hmem2 hf hmem3
      · simp only [Engine.run_events, h] at hf ⊢
        rw [List.mem_cons] at hf
        rcases hf with heq | hf
        · exact absurd heq hne
        · by_cases hjc : je.ev.is_continues
          · simp only [hjc, if_true]
            rw [List.map_cons, List.mem_cons]
            rintro (heq | hmem3)
            · exact hne heq
            · exact ih _ hnd2 hmem2 hf hmem3
          · simp only [hjc, if_false]
            exact ih _ hnd2 hmem2 hf

/-- The ids handed out by `idAssign` lie in `[n, n + length)`. -/
theorem idAssign_id_bounds (n : Nat) (l : List Engine.WorldEvent) (ie : Engine.IdEvent)
    (h : ie ∈ Engine.idAssign n l) : n ≤ ie.id ∧ ie.id < n + l.length := by
  induction l generalizing n with
  | nil => cases h
  | cons e rest ih =>
    rcases List.mem_cons.mp h with rfl | h2
    · simp
    · have := ih (n + 1) h2
      simp only [List.length_cons]
      omega

/-- The ids handed out by `idAssign` are distinct. -/
theorem idAssign_nodup (n : Nat) (l : List Engine.WorldEvent) :
    ((Engine.idAssign n l).map Engine.IdEvent.id).Nodup := by
  induction l generalizing n with
  | nil => simp [Engine.idAssign]
  | cons e rest ih =>
    simp only [Engine.idAssign, List.map_cons, List.nodup_cons]
    refine ⟨?_, ih (n + 1)⟩
    intro hmem
    obtain ⟨je, hje, hid⟩ := List.mem_map.mp hmem
    have := idAssign_id_bounds (n + 1) rest je hje
    omega

/-- `idAssign` decorates the drained events without changing them. -/
theorem idAssign_map_ev (n : Nat) (l : List Engine.WorldEvent) :
    (Engine.idAssign n l).map Engine.IdEvent.ev = l := by
  induction l generalizing n with
  | nil => rfl
  | cons e rest ih => simp [Engine.idAssign, ih]

/-- Every drained event appears (under some ghost id) in the output of
`idAssign`. -/
theorem idAssign_mem_ev (n : Nat) (l : List Engine.WorldEvent) (e : Engine.WorldEvent)
    (h : e ∈ l) : ∃ i, (⟨i, e⟩ : Engine.IdEvent) ∈ Engine.idAssign n l := by
  induction l generalizing n with
  | nil => cases h
  | cons a rest ih =>
    rcases List.mem_cons.mp h with rfl | h2
    · exact ⟨n, List.mem_cons_self _ _⟩
    · obtain ⟨i, hi⟩ := ih (n + 1) h2
      exact ⟨i, List.mem_cons_of_mem _ hi⟩

/-- One tick preserves the ghost-id well-formedness invariant. -/
theorem tick_WF (g : Engine.Game) (h : g.WF) : (Engine.Game.tick g).1.WF := by
  obtain ⟨hlt, hnd⟩ := h
  constructor
  · intro ie hie
    rcases List.mem_append.mp hie with hk | ha
    · have := hlt ie ((run_events_kept_sublist g.events g.world).subset hk)
      simp only [Engine.Game.tick]
      omega
    · have := idAssign_id_bounds _ _ ie ha
      simp only [Engine.Game.tick]
      omega
  · show (((Engine.run_events g.events g.world).kept ++ _).map Engine.IdEvent.id).Nodup
    rw [List.map_append]
    apply List.Nodup.append
    · exact ((run_events_kept_sublist g.events g.world).map Engine.IdEvent.id).nodup hnd
    · exact idAssign_nodup _ _
    · intro i hk ha
      obtain ⟨ie, hie, rfl⟩ := List.mem_map.mp hk
      obtain ⟨je, hje, hid⟩ := List.mem_map.mp ha
      have h1 := hlt ie ((run_events_kept_sublist g.events g.world).subset hie)
      have h2 := idAssign_id_bounds _ _ je hje
      omega

/-- The fresh-id counter never decreases across a tick. -/
theorem tick_next_id_mono (g : Engine.Game) : g.next_id ≤ (Engine.Game.tick g).1.next_id := by
  simp only [Engine.Game.tick]
  omega

/-- Once an id has left the active list (and is below the fresh-id counter),
it never fires again and never reappears. -/
theorem run_gone (n : Nat) (g : Engine.Game) (i : Nat) (hwf : g.WF) (hlt : i < g.next_id)
    (hni : i ∉ g.events.map Engine.IdEvent.id) :
    (Engine.Game.run g n).2.count i = 0
    ∧ i ∉ (Engine.Game.run g n).1.events.map Engine.IdEvent.id := by
  induction n generalizing g with
  | zero => exact ⟨rfl, hni⟩
  | succ n ih =>
    have hfired : (Engine.run_events g.events g.world).fired.count i = 0 := by
      rw [List.count_eq_zero]
      intro hmem
      exact hni ((run_events_fired_sublist g.events g.world).subset hmem)
    have hni2 : i ∉ (Engine.Game.tick g).1.events.map Engine.IdEvent.id := by
      intro hmem
      rw [show (Engine.Game.tick g).1.events
            = (Engine.run_events g.events g.world).kept
              ++ Engine.idAssign g.next_id (Engine.run_events g.events g.world).world.new_events
          from rfl, List.map_append, List.mem_append] at hmem
      rcases hmem with hk | ha
      · obtain ⟨ie, hie, rfl⟩ := List.mem_map.mp hk
        exact hni (List.mem_map_of_mem Engine.IdEvent.id
          ((run_events_kept_sublist g.events g.world).subset hie))
      · obtain ⟨je, hje, hid⟩ := List.mem_map.mp ha
        have := idAssign_id_bounds _ _ je hje
        omega
    have hlt2 : i < (Engine.Game.tick g).1.next_id :=
      Nat.lt_of_lt_of_le hlt (tick_next_id_mono g)
    have step := ih (Engine.Game.tick g).1 (tick_WF g hwf) hlt2 hni2
    refine ⟨?_, step.2⟩
    show ((Engine.Game.tick g).2 ++ (Engine.Game.run (Engine.Game.tick g).1 n).2).count i = 0
    rw [List.count_append]
    have : (Engine.Game.tick g).2 = (Engine.run_events g.events g.world).fired := rfl
    rw [this, hfired, step.1]

/-- A non-continuing event in a well-formed active list fires at most once
over any multi-tick run. -/
theorem run_count_le_one (n : Nat) (g : Engine.Game) (i : Nat) (e : Engine.WorldEvent)
    (hwf : g.WF) (hmem : (⟨i, e⟩ : Engine.IdEvent) ∈ g.events)
    (hc : e.is_continues = false) :
    (Engine.Game.run g n).2.count i ≤ 1 := by
  induction n generalizing g with
  | zero => simp [Engine.Game.run]
  | succ n ih =>
    obtain ⟨hlt, hnd⟩ := hwf
    have hilt : i < g.next_id := hlt ⟨i, e⟩ hmem
    have hkeptsub := run_events_kept_sublist g.events g.world
    have hcount1 : (Engine.run_events g.events g.world).fired.count i ≤ 1 := by
      have h1 := (run_events_fired_sublist g.events g.world).count_le i
      have h2 := List.nodup_iff_count_le_one.mp hnd i
      omega
    show ((Engine.Game.tick g).2 ++ (Engine.Game.run (Engine.Game.tick g).1 n).2).count i ≤ 1
    rw [List.count_append]
    by_cases hf : i ∈ (Engine.run_events g.events g.world).fired
    · -- fired this tick: dropped from the next active list, so it never recurs
      have hdrop := run_events_oneshot_dropped g.events g.world ⟨i, e⟩ hnd hmem hc hf
      have hni2 : i ∉ (Engine.Game.tick g).1.events.map Engine.IdEvent.id := by
        intro hmem2
        rw [show (Engine.Game.tick g).1.events
              = (Engine.run_events g.events g.world).kept
                ++ Engine.idAssign g.next_id (Engine.run_events g.events g.world).world.new_events
            from rfl, List.map_append, List.mem_append] at hmem2
        rcases hmem2 with hk | ha
        · exact hdrop hk
        · obtain ⟨je, hje, hid⟩ := List.mem_map.mp ha
          have := idAssign_id_bounds _ _ je hje
          omega
      have hgone := run_gone n (Engine.Game.tick g).1 i (tick_WF g ⟨hlt, hnd⟩)
        (Nat.lt_of_lt_of_le hilt (tick_next_id_mono g)) hni2
      have : (Engine.Game.tick g).2.count i ≤ 1 := hcount1
      omega
    · -- not fired this tick
      have hzero : (Engine.Game.tick g).2.count i = 0 := List.count_eq_zero.mpr hf
      by_cases hik : i ∈ (Engine.run_events g.events g.world).kept.map Engine.IdEvent.id
      · obtain ⟨je, hje, hid⟩ := List.mem_map.mp hik
        have hje2 : je ∈ g.events := hkeptsub.subset hje
        have hinj := List.inj_on_of_nodup_map hnd
        have : je = ⟨i, e⟩ := hinj hje2 hmem hid
        subst this
        have hmem2 : (⟨i, e⟩ : Engine.IdEvent) ∈ (Engine.Game.tick g).1.events := by
          exact List.mem_append_left _ hje
        have := ih (Engine.Game.tick g).1 (tick_WF g ⟨hlt, hnd⟩) hmem2
        omega
      · have hni2 : i ∉ (Engine.Game.tick g).1.events.map Engine.IdEvent.id := by
          intro hmem2
          rw [show (Engine.Game.tick g).1.events
                = (Engine.run_events g.events g.world).kept
                  ++ Engine.idAssign g.next_id (Engine.run_events g.events g.world).world.new_events
              from rfl, List.map_append, List.mem_append] at hmem2
          rcases hmem2 with hk | ha
          · exact hik hk
          · obtain ⟨je, hje, hid⟩ := List.mem_map.mp ha
            have := idAssign_id_bounds _ _ je hje
            omega
        have hgone := run_gone n (Engine.Game.tick g).1 i (tick_WF g ⟨hlt, hnd⟩)
          (Nat.lt_of_lt_of_le hilt (tick_next_id_mono g)) hni2
        omega

/-- A continuing event stays in the active list across any number of ticks. -/
theorem run_continues_kept (n : Nat) (g : Engine.Game) (i : Nat) (e : Engine.WorldEvent)
    (hmem : (⟨i, e⟩ : Engine.IdEvent) ∈ g.events) (hc : e.is_continues = true) :
    (⟨i, e⟩ : Engine.IdEvent) ∈ (Engine.Game.run g n).1.events := by
  induction n generalizing g with
  | zero => exact hmem
  | succ n ih =>
    have hkept := run_events_continues_kept g.events g.world ⟨i, e⟩ hmem hc
    exact ih (Engine.Game.tick g).1 (List.mem_append_left _ hkept)

/-! ## Claim theorems -/

/-- **C2**.  For every non-repeating timer in the registry whose duration has
passed, the first `timer_elapsed` call returns `Some(true)` and removes the
timer's key from the table; any call on a state where the key is absent
returns `None`, and the `TimerElapsed` trigger maps that `None` to "not
triggered" via `unwrap_or(false)`. -/
theorem timer_elapse_idempotence (w : Engine.WorldData) (key : String)
    (t : Engine.WorldTimer) (hget : w.timers key = some t)
    (hrep : t.is_repeat = false) (helapsed : t.elapsed w.now = true) :
    (Engine.timer_elapsed w key).1 = some true
    ∧ ((Engine.timer_elapsed w key).2).timers key = none
    ∧ (∀ w2 : Engine.WorldData, w2.timers key = none →
        Engine.timer_elapsed w2 key = (none, w2))
    ∧ (∀ w2 : Engine.WorldData, w2.timers key = none →
        (Engine.WorldEventTrigger.TimerElapsed key).is_triggered w2 = (false, w2)) := by
  refine ⟨?_, ?_, ?_, ?_⟩
  · simp [Engine.timer_elapsed, hget, helapsed, hrep]
  · simp [Engine.timer_elapsed, hget, helapsed, hrep]
  · intro w2 h2
    simp [Engine.timer_elapsed, h2]
  · intro w2 h2
    simp [Engine.WorldEventTrigger.is_triggered, Engine.timer_elapsed, h2]

/-- Witness for **C2**: the concrete elapsed non-repeating timer `"t"` in
`wTimer`. -/
theorem timer_elapse_idempotence_witness :
    wTimer.timers "t" = some ⟨5, false, 0⟩
    ∧ Engine.WorldTimer.elapsed ⟨5, false, 0⟩ wTimer.now = true
    ∧ (Engine.timer_elapsed wTimer "t").1 = some true
    ∧ ((Engine.timer_elapsed wTimer "t").2).timers "t" = none
    ∧ Engine.timer_elapsed (Engine.timer_elapsed wTimer "t").2 "t" =
        (none, (Engine.timer_elapsed wTimer "t").2) := by
  have h := timer_elapse_idempotence wTimer "t" ⟨5, false, 0⟩ rfl rfl rfl
  exact ⟨rfl, rfl, h.1, h.2.1, h.2.2.1 _ h.2.1⟩

/-- **C8**.  Sending a signal with key `k` inserts `k` into the signal set;
the first subsequent evaluation of a `Signal(k)` trigger returns true and
removes `k`; evaluating `Signal(k)` on a state where `k` is not present
returns false and leaves the signal set unchanged. -/
theorem signal_consumption (w : Engine.WorldData) (key : String) :
    (Engine.send_signal w key).signals key = true
    ∧ (Engine.signaled (Engine.send_signal w key) key).1 = true
    ∧ ((Engine.signaled (Engine.send_signal w key) key).2).signals key = false
    ∧ ((Engine.WorldEventTrigger.Signal key).is_triggered (Engine.send_signal w key)).1 = true
    ∧ (w.signals key = false →
        (Engine.signaled w key).1 = false
        ∧ ((Engine.WorldEventTrigger.Signal key).is_triggered w).1 = false
        ∧ ∀ k, ((Engine.signaled w key).2).signals k = w.signals k) := by
  refine ⟨?_, ?_, ?_, ?_, ?_⟩
  · simp [Engine.send_signal]
  · simp [Engine.signaled, Engine.send_signal]
  · simp [Engine.signaled]
  · simp [Engine.WorldEventTrigger.is_triggered, Engine.signaled, Engine.send_signal]
  · intro h
    refine ⟨by simpa [Engine.signaled] using h,
            by simpa [Engine.WorldEventTrigger.is_triggered, Engine.signaled] using h, ?_⟩
    intro k
    by_cases hk : k = key
    · subst hk
      simpa [Engine.signaled] using h.symm
    · simp [Engine.signaled, hk]

/-- Witness for **C8**: the never-sent key `"s"` in the empty signal set,
then sent and consumed. -/
theorem signal_consumption_witness :
    dataW.signals "s" = false
    ∧ (Engine.signaled dataW "s").1 = false
    ∧ (Engine.send_signal dataW "s").signals "s" = true
    ∧ (Engine.signaled (Engine.send_signal dataW "s") "s").1 = true
    ∧ ((Engine.signaled (Engine.send_signal dataW "s") "s").2).signals "s" = false := by
  have h := signal_consumption dataW "s"
  exact ⟨rfl, (h.2.2.2.2 rfl).1, h.1, h.2.1, h.2.2.1⟩

/-- **C4**.  The collision-margin scenario: an enemy at column 10, line 5
with armor 2, a bullet at column 10, line 4 under hit margin
(top=1,right=0,bottom=1,left=0).  Pass 1 decrements armor to 1 and leaves
`Alive`; pass 2 (another qualifying bullet) produces `DeadBody` and adds
exactly 10 to the score; pass 3 (no hits) advances to `Dead`; the next pass's
cleanup removes the entity. -/
theorem collision_margin_scenario :
    (Collision.update_entities_status wC4_1).entities =
      [⟨⟨10, 5⟩, Collision.EntityStatus.Alive, Collision.EntityType.Enemy 1⟩]
    ∧ (Collision.update_entities_status wC4_1).player.score = 0
    ∧ (Collision.update_entities_status wC4_2).entities =
      [⟨⟨10, 5⟩, Collision.EntityStatus.DeadBody, Collision.EntityType.Enemy 0⟩]
    ∧ (Collision.update_entities_status wC4_2).player.score = wC4_1.player.score + 10
    ∧ (Collision.update_entities_status wC4_3).entities =
      [⟨⟨10, 5⟩, Collision.EntityStatus.Dead, Collision.EntityType.Enemy 0⟩]
    ∧ (Collision.update_entities_status wC4_3).player.score = wC4_1.player.score + 10
    ∧ (Collision.update_entities_status wC4_4).entities = [] := by
  exact ⟨rfl, rfl, rfl, rfl, rfl, rfl, rfl⟩

/-- **C5, counterexample**.  A Fuel entity with status `Dead` is *not*
removed by the cleanup step: it survives a whole resolver pass, refuting "no
entity with status Dead — regardless of kind — survives the cleanup step". -/
theorem dead_fuel_survives_cleanup :
    wC5.entities = [⟨⟨3, 3⟩, Collision.EntityStatus.Dead, Collision.EntityType.Fuel⟩]
    ∧ Collision.remove_dead wC5.entities =
        [⟨⟨3, 3⟩, Collision.EntityStatus.Dead, Collision.EntityType.Fuel⟩]
    ∧ (Collision.update_entities_status wC5).entities =
        [⟨⟨3, 3⟩, Collision.EntityStatus.Dead, Collision.EntityType.Fuel⟩] := by
  exact ⟨rfl, rfl, rfl⟩

/-- **C5, amended**.  The cleanup step opening every resolver pass removes
exactly the *Enemy* entities whose status is `Dead` (before any hit test
runs); a `Dead` Fuel entity is retained. -/
theorem dead_enemy_purge (es : List Collision.Entity) :
    (∀ e ∈ Collision.remove_dead es, e.entity_type.is_enemy = true →
        e.status ≠ Collision.EntityStatus.Dead)
    ∧ (∀ e ∈ es, e.status = Collision.EntityStatus.Dead →
        e.entity_type.is_fuel = true → e ∈ Collision.remove_dead es) := by
  constructor
  · intro e he hen hd
    rw [Collision.remove_dead, List.mem_filter] at he
    simp [hen, hd] at he
  · intro e he hd hf
    rw [Collision.remove_dead, List.mem_filter]
    refine ⟨he, ?_⟩
    cases hty : e.entity_type with
    | Enemy a => simp [Collision.EntityType.is_fuel, hty] at hf
    | Fuel => simp [Collision.EntityType.is_enemy, hty]

/-- Witness for **C5 amended**: the concrete dead Fuel entity of `wC5` is
retained by the cleanup step. -/
theorem dead_enemy_purge_witness :
    (⟨⟨3, 3⟩, Collision.EntityStatus.Dead, Collision.EntityType.Fuel⟩ : Collision.Entity)
      ∈ Collision.remove_dead wC5.entities := by
  exact (dead_enemy_purge wC5.entities).2 _ (List.mem_singleton.mpr rfl) rfl rfl

/-- **C6, counterexample**.  A player with fuel 0 whose column lies outside
the river borders dies with cause `Ground`, not `Fuel`: the fuel-exhaustion
transition is *not* position-independent, because the ground check runs first
and returns early. -/
theorem fuel_death_position_dependent :
    wC6.player.fuel = 0
    ∧ wC6.map.is_in_river wC6.player.location.column wC6.player.location.line = some false
    ∧ Collision.update_player_status wC6 =
        some { wC6 with player :=
          { wC6.player with status := Collision.PlayerStatus.Dead Collision.DeathCause.Ground } }
    ∧ Collision.PlayerStatus.Dead Collision.DeathCause.Ground ≠
        Collision.PlayerStatus.Dead Collision.DeathCause.Fuel := by
  exact ⟨rfl, rfl, rfl, by decide⟩

/-- **C6, amended**.  On a player-status pass: a player outside the river
borders of its line transitions to `Dead(Ground)` regardless of fuel; a
player *inside* the river with fuel 0 transitions to `Dead(Fuel)`; otherwise
the player is untouched. -/
theorem player_death_causes (w : Collision.World) (b : Bool)
    (h : w.map.is_in_river w.player.location.column w.player.location.line = some b) :
    (b = false → Collision.update_player_status w =
        some { w with player :=
          { w.player with status := Collision.PlayerStatus.Dead Collision.DeathCause.Ground } })
    ∧ (b = true → w.player.fuel = 0 → Collision.update_player_status w =
        some { w with player :=
          { w.player with status := Collision.PlayerStatus.Dead Collision.DeathCause.Fuel } })
    ∧ (b = true → w.player.fuel ≠ 0 → Collision.update_player_status w = some w) := by
  refine ⟨?_, ?_, ?_⟩
  · intro hb
    subst hb
    simp [Collision.update_player_status, h]
  · intro hb hf
    subst hb
    simp [Collision.update_player_status, h, hf]
  · intro hb hf
    subst hb
    simp [Collision.update_player_status, h, hf]

/-- Witness for **C6 amended**: the in-river, fuel-0 player of `wC6w` dies
with cause `Fuel`. -/
theorem player_death_causes_witness :
    wC6w.map.is_in_river wC6w.player.location.column wC6w.player.location.line = some true
    ∧ wC6w.player.fuel = 0
    ∧ Collision.update_player_status wC6w =
        some { wC6w with player :=
          { wC6w.player with status := Collision.PlayerStatus.Dead Collision.DeathCause.Fuel } } := by
  exact ⟨rfl, rfl, (player_death_causes wC6w true rfl).2.1 rfl rfl⟩

/-- **C10**.  Evaluating the resolver at the failing input `wC10` (a
`DeadBody` enemy with armor 0 within the bullet's hit margin): the bullet
loop still tests the dead entity, executes `armor -= 1` with armor 0, and the
`u16` subtraction underflows — wrapping to 65535 in release builds (and
panicking in debug builds).  This refutes "the enemy's armor is at least 1
whenever the decrement executes". -/
theorem armor_underflow_at_failing_input :
    wC10.entities = [⟨⟨10, 6⟩, Collision.EntityStatus.DeadBody, Collision.EntityType.Enemy 0⟩]
    ∧ (wC10.player.bullets.map fun b =>
        b.location.hit_with_margin ⟨10, 6⟩ 1 0 1 0) = [true]
    ∧ (Collision.update_entities_status wC10).entities =
        [⟨⟨10, 6⟩, Collision.EntityStatus.Dead, Collision.EntityType.Enemy 65535⟩] := by
  exact ⟨rfl, rfl, rfl⟩

/-- **C7, counterexample**.  With the front line at width 5, center 5 and the
target at width 6, center 6 (both coordinates differ from the target), the
smoothed update leaves the front line unchanged: `5 + (6-5)*0.1` truncates
back to 5, so the update is *not* strictly closer to the target.  (The
distance stays `Nat.dist 5 6 = 1`.) -/
theorem smoothing_can_stall :
    mC7.front = some ⟨5, 5⟩
    ∧ mC7.target_river = ⟨6, 6⟩
    ∧ mC7.decide_next = some ⟨5, 5⟩
    ∧ ¬ (Nat.dist 5 6 < Nat.dist 5 6) := by
  refine ⟨rfl, rfl, ?_, by decide⟩
  rw [decide_next_eq mC7 ⟨5, 5⟩ rfl]
  rfl

/-- **C7, amended**.  For `RiverMode::Random` with `max_center_diff = d`:
every newly generated target has a center within `d` of the current front
line's center; and the per-tick smoothed update never overshoots the target
in either coordinate — it moves strictly closer whenever the current value is
*above* the target, but when the current value is below the target the
truncated update may stall (it does not always move strictly closer, cf. the
counterexample). -/
theorem map_drift_boundedness (m : Engine.Map) (mw Mw d : Nat) (f : Engine.RiverPart)
    (hmode : m.river_mode.value = Engine.RiverMode.Random mw Mw d)
    (hf : m.front = some f) :
    (∀ rw rc : Nat, ∃ r, Engine.RiverPart.from_map m rw rc = some r
        ∧ Nat.dist r.center_c f.center_c ≤ d)
    ∧ ∃ np, m.decide_next = some np
        ∧ (f.width ≤ m.target_river.width →
            f.width ≤ np.width ∧ np.width ≤ m.target_river.width)
        ∧ (m.target_river.width < f.width →
            m.target_river.width ≤ np.width ∧ np.width < f.width)
        ∧ (f.center_c ≤ m.target_river.center_c →
            f.center_c ≤ np.center_c ∧ np.center_c ≤ m.target_river.center_c)
        ∧ (m.target_river.center_c < f.center_c →
            m.target_river.center_c ≤ np.center_c ∧ np.center_c < f.center_c) := by
  constructor
  · intro rw rc
    simp only [Engine.RiverPart.from_map, hmode, hf, Engine.RiverPart.new]
    split_ifs with h1 h2 h3
    · refine ⟨_, rfl, ?_⟩
      dsimp only
      simp only [Nat.dist] at h1 ⊢
      omega
    · refine ⟨_, rfl, ?_⟩
      dsimp only
      simp only [Nat.dist] at h1 ⊢
      omega
    · exfalso
      simp [Nat.dist] at h1
      omega
    · refine ⟨_, rfl, ?_⟩
      dsimp only
      simp only [Nat.dist] at h1 ⊢
      omega
  · refine ⟨_, decide_next_eq m f hf, ?_, ?_, ?_, ?_⟩ <;>
      · dsimp only
        intro h
        constructor <;> omega

/-- Witness for **C7 amended**, at the concrete map `mC7` with the random
draw `(rw, rc) = (7, 0)`. -/
theorem map_drift_boundedness_witness :
    mC7.river_mode.value = Engine.RiverMode.Random 5 6 5
    ∧ mC7.front = some ⟨5, 5⟩
    ∧ (∃ r, Engine.RiverPart.from_map mC7 7 0 = some r ∧ Nat.dist r.center_c 5 ≤ 5)
    ∧ (∃ np, mC7.decide_next = some np) := by
  have h := map_drift_boundedness mC7 5 6 5 ⟨5, 5⟩ rfl rfl
  refine ⟨rfl, rfl, h.1 7 0, ?_⟩
  obtain ⟨np, hnp, -⟩ := h.2
  exact ⟨np, hnp⟩

/-- **C9, counterexample**.  For a map constructed with viewport height
`max_l = 1`, `Map::update` hits the `unreachable!("Map can't get empty.")`
panic: the single line is popped before `decide_next` reads the front, so the
invariant is not preserved — the claim fails for `max_l = 1` (it holds from
`max_l ≥ 2` on). -/
theorem map_update_single_line_panics :
    (Engine.Map.new 20 1 5 6 2 5).river_parts.length = 1
    ∧ Engine.Map.update (Engine.Map.new 20 1 5 6 2 5) 5 0 = none := by
  exact ⟨rfl, rfl⟩

/-- **C9, amended**.  `Map::new` creates a window of exactly `max_l` lines,
and for every map whose window has `max_l ≥ 2` lines, `Map::update` succeeds
and preserves the invariant: the result again has exactly `max_l` lines and
is non-empty, with the back line dropped and exactly one newly computed line
pushed to the front. -/
theorem map_window_invariant :
    (∀ mc ml mw Mw cr d : Nat,
        (Engine.Map.new mc ml mw Mw cr d).river_parts.length = ml)
    ∧ (∀ (m : Engine.Map) (rw rc : Nat), m.river_parts.length = m.max_l → 2 ≤ m.max_l →
        ∃ m' np, Engine.Map.update m rw rc = some m'
          ∧ m'.river_parts = np :: m.river_parts.dropLast
          ∧ m'.river_parts.length = m.max_l
          ∧ m'.max_l = m.max_l
          ∧ m'.river_parts ≠ []) := by
  constructor
  · intro mc ml mw Mw cr d
    simp [Engine.Map.new]
  · intro m rw rc hlen hml
    obtain ⟨f, hf⟩ : ∃ f, m.front = some f := by
      cases hrp : m.river_parts with
      | nil =>
        rw [hrp] at hlen
        simp at hlen
        omega
      | cons a l => exact ⟨a, by simp [Engine.Map.front, hrp]⟩
    obtain ⟨p, ps, hps⟩ : ∃ p ps, m.river_parts.dropLast = p :: ps := by
      cases hd : m.river_parts.dropLast with
      | nil =>
        have := List.length_dropLast m.river_parts
        rw [hd] at this
        simp at this
        omega
      | cons p ps => exact ⟨p, ps, rfl⟩
    unfold Engine.Map.update
    by_cases hnp : m.next_point ≤ m.change_rate
    · obtain ⟨t, ht⟩ := from_map_isSome m f hf rw rc
      rw [if_pos hnp]
      unfold Engine.Map.generate_new_target
      rw [ht]
      dsimp only
      rw [decide_next_eq _ p (by simp [Engine.Map.front, hps])]
      refine ⟨_, _, rfl, rfl, ?_, rfl, by simp⟩
      simp only [List.length_cons, List.length_dropLast, hlen]
      omega
    · rw [if_neg hnp]
      dsimp only
      rw [decide_next_eq _ p (by simp [Engine.Map.front, hps])]
      refine ⟨_, _, rfl, rfl, ?_, rfl, by simp⟩
      simp only [List.length_cons, List.length_dropLast, hlen]
      omega

/-- Witness for **C9 amended**: a two-line map built by `Map::new`, updated
once with the random draw `(5, 0)`. -/
theorem map_window_invariant_witness :
    (Engine.Map.new 20 2 5 6 2 5).river_parts.length = 2
    ∧ ∃ m' np, Engine.Map.update (Engine.Map.new 20 2 5 6 2 5) 5 0 = some m'
        ∧ m'.river_parts = np :: (Engine.Map.new 20 2 5 6 2 5).river_parts.dropLast
        ∧ m'.river_parts.length = 2 := by
  have h1 := map_window_invariant.1 20 2 5 6 2 5
  have h2 := map_window_invariant.2 (Engine.Map.new 20 2 5 6 2 5) 5 0 h1 (by decide)
  obtain ⟨m', np, hupd, hcons, hlen, -, -⟩ := h2
  exact ⟨h1, m', np, hupd, hcons, hlen⟩

/-- **C1**.  The deferred-add law: a dispatch pass evaluates exactly the
triggers of the pre-pass active list (each once, in order); an event
registered by a handler through `World::add_event` goes to the pending
`new_events` queue, not to the active list; at the end of the tick the
pending queue is drained (in order) into the active list and cleared; and the
next tick's pass evaluates exactly that new active list — so the added
event's trigger is evaluated for the first time during tick N+1. -/
theorem deferred_add_law (g : Engine.Game) :
    (Engine.run_events g.events g.world).evaluated = g.events
    ∧ (∀ (t : Engine.WorldEventTrigger) (c : Bool) (h : Engine.Handler) (w : Engine.World),
        (Engine.run_handler (Engine.Handler.add_event t c h) w).new_events
          = w.new_events ++ [⟨t, c, h⟩])
    ∧ (Engine.Game.tick g).1.events
        = (Engine.run_events g.events g.world).kept
          ++ Engine.idAssign g.next_id (Engine.run_events g.events g.world).world.new_events
    ∧ (Engine.Game.tick g).1.world.new_events = []
    ∧ (∀ e ∈ (Engine.run_events g.events g.world).world.new_events,
        ∃ i, (⟨i, e⟩ : Engine.IdEvent) ∈ (Engine.Game.tick g).1.events)
    ∧ (Engine.run_events (Engine.Game.tick g).1.events (Engine.Game.tick g).1.world).evaluated
        = (Engine.Game.tick g).1.events := by
  refine ⟨run_events_evaluated _ _, ?_, rfl, rfl, ?_, run_events_evaluated _ _⟩
  · intro t c h w
    rfl
  · intro e he
    obtain ⟨i, hi⟩ := idAssign_mem_ev g.next_id _ e he
    exact ⟨i, List.mem_append_right _ hi⟩

/-- Witness for **C1**: in `gAdd` the single always-firing handler registers
a new event; after the pass the new event sits in the pending queue, the pass
evaluated only the original active list, and the new event is in the next
active list. -/
theorem deferred_add_law_witness :
    (Engine.run_events gAdd.events gAdd.world).world.new_events =
      [⟨Engine.WorldEventTrigger.Always, false, Engine.Handler.skip⟩]
    ∧ (Engine.run_events gAdd.events gAdd.world).evaluated = gAdd.events
    ∧ ∃ i, (⟨i, ⟨Engine.WorldEventTrigger.Always, false, Engine.Handler.skip⟩⟩ : Engine.IdEvent)
        ∈ (Engine.Game.tick gAdd).1.events := by
  have h := deferred_add_law gAdd
  exact ⟨rfl, h.1, h.2.2.2.2.1 _ (List.mem_singleton.mpr rfl)⟩

/-- **C3**.  The event-continuation law (over ghost event ids, which identify
one registration of an event across ticks): a `continues=false` event of a
well-formed active list has its handler invoked at most once over a whole
`n`-tick run, and on the tick it fires it is removed from the active list;
a `continues=true` event remains in the active list across every tick —
in particular across every tick on which its trigger returns false. -/
theorem event_continuation_law (g : Engine.Game) (n : Nat) (i : Nat) (e : Engine.WorldEvent)
    (hwf : g.WF) (hmem : (⟨i, e⟩ : Engine.IdEvent) ∈ g.events) :
    (e.is_continues = false →
        (Engine.Game.run g n).2.count i ≤ 1
        ∧ (i ∈ (Engine.run_events g.events g.world).fired →
            i ∉ (Engine.Game.tick g).1.events.map Engine.IdEvent.id))
    ∧ (e.is_continues = true →
        (⟨i, e⟩ : Engine.IdEvent) ∈ (Engine.Game.run g n).1.events) := by
  constructor
  · intro hc
    refine ⟨run_count_le_one n g i e hwf hmem hc, ?_⟩
    intro hf hmem2
    obtain ⟨hlt, hnd⟩ := hwf
    have hdrop := run_events_oneshot_dropped g.events g.world ⟨i, e⟩ hnd hmem hc hf
    rw [show (Engine.Game.tick g).1.events
          = (Engine.run_events g.events g.world).kept
            ++ Engine.idAssign g.next_id (Engine.run_events g.events g.world).world.new_events
        from rfl, List.map_append, List.mem_append] at hmem2
    rcases hmem2 with hk | ha
    · exact hdrop hk
    · obtain ⟨je, hje, hid⟩ := List.mem_map.mp ha
      have hb := idAssign_id_bounds _ _ je hje
      have hilt : i < g.next_id := hlt ⟨i, e⟩ hmem
      omega
  · intro hc
    exact run_continues_kept n g i e hmem hc

/-- Witness for **C3**: in `gW` the one-shot event (id 0) fires exactly once
over a 3-tick run and the continuing event (id 1) is still active after it. -/
theorem event_continuation_law_witness :
    gW.WF
    ∧ (⟨0, evA⟩ : Engine.IdEvent) ∈ gW.events
    ∧ (⟨1, evB⟩ : Engine.IdEvent) ∈ gW.events
    ∧ (Engine.Game.run gW 3).2.count 0 ≤ 1
    ∧ (⟨1, evB⟩ : Engine.IdEvent) ∈ (Engine.Game.run gW 3).1.events := by
  have hwf : gW.WF := by
    constructor
    · intro ie hie
      rcases List.mem_cons.mp hie with rfl | hie2
      · decide
      · rcases List.mem_cons.mp hie2 with rfl | hie3
        · decide
        · cases hie3
    · decide
  have hmemA : (⟨0, evA⟩ : Engine.IdEvent) ∈ gW.events := List.mem_cons_self _ _
  have hmemB : (⟨1, evB⟩ : Engine.IdEvent) ∈ gW.events :=
    List.mem_cons_of_mem _ (List.mem_cons_self _ _)
  refine ⟨hwf, hmemA, hmemB, ?_, ?_⟩
  · exact ((event_continuation_law gW 3 0 evA hwf hmemA).1 rfl).1
  · exact (event_continuation_law gW 3 1 evB hwf hmemB).2 rfl
